import Mathlib

/-!
Verification development for the NHL-Fantasy-Helper mock-draft core.

The definitions below are a shallow embedding of the TypeScript draft engine:
  * `src/fantasy-puck/src/utils/draftEngine.ts`   (draft order, roster assignment)
  * `src/fantasy-puck/src/utils/cpuDraftLogic.ts` (CPU scoring / selection)
  * `src/fantasy-puck/src/contexts/DraftContext.tsx` (the draft reducer)

Modelling conventions:
  * JavaScript numbers that the engine only ever uses as non-negative integers
    (capacities, filled counts, pick numbers, indices) become `Nat`.
  * ADP values and CPU scores (JS doubles) become `Rat`; the claims settled here
    are about the structure of the computation (which branch fires, ordering by
    strict comparison), not about binary floating-point rounding.
  * `Math.random()` becomes an explicit parameter (a value in `[0,1)`), and a
    per-candidate random stream becomes a function `Nat → Rat` consumed in
    candidate order, exactly as the JS `map` evaluates one `Math.random()` call
    per scored candidate.
  * TS in-place mutation of a roster becomes explicit state passing: a function
    that mutates `roster.filledPositions` returns the new filled-count record.
  * `new Date()` timestamps become an explicit `now : Nat` parameter.
  * The reducer's non-null assertion `state.leagueSettings!` throws a TypeError
    at runtime when the settings are `null`; the embedded reducer returns
    `none` in exactly those situations, and `some s` when the TS code returns
    the state `s`.
-/

/-- `Position` from `types/draft.ts`: `'C' | 'LW' | 'RW' | 'D' | 'G' | 'F' | 'UTIL' | 'BENCH'`. -/
inductive Position where
  | C | LW | RW | D | G | F | UTIL | BENCH
deriving DecidableEq, Repr

instance : BEq Position := ⟨fun a b => decide (a = b)⟩

instance : LawfulBEq Position where
  eq_of_beq h := of_decide_eq_true h
  rfl := by simp [BEq.beq]

/-- `DraftPlayer` from `types/draft.ts`.  The optional box-score display fields
(`goals`, `assists`, ...) are never read by the draft core and are omitted. -/
structure DraftPlayer where
  playerId : String
  skaterFullName : String
  teamAbbrevs : String
  positionCode : String
  positions : List Position
  espnADP : Rat
  espnPercentOwned : Rat
  espnTotalRanking : Rat
deriving DecidableEq, Repr

/-- `RosterConfig` from `types/draft.ts`: slot capacities per position. -/
structure RosterConfig where
  C : Nat
  LW : Nat
  RW : Nat
  D : Nat
  G : Nat
  F : Nat
  UTIL : Nat
  BENCH : Nat
deriving DecidableEq, Repr

/-- Index a `RosterConfig` by a `Position` (TS `rosterConfig[pos]`). -/
def RosterConfig.pos (cfg : RosterConfig) : Position → Nat
  | .C => cfg.C
  | .LW => cfg.LW
  | .RW => cfg.RW
  | .D => cfg.D
  | .G => cfg.G
  | .F => cfg.F
  | .UTIL => cfg.UTIL
  | .BENCH => cfg.BENCH

/-- The `filledPositions` record of a `TeamRoster`. -/
structure FilledPositions where
  C : Nat
  LW : Nat
  RW : Nat
  D : Nat
  G : Nat
  F : Nat
  UTIL : Nat
  BENCH : Nat
deriving DecidableEq, Repr

/-- Index `filledPositions` by a `Position` (TS `filledPositions[pos]`). -/
def FilledPositions.pos (f : FilledPositions) : Position → Nat
  | .C => f.C
  | .LW => f.LW
  | .RW => f.RW
  | .D => f.D
  | .G => f.G
  | .F => f.F
  | .UTIL => f.UTIL
  | .BENCH => f.BENCH

/-- TS `roster.filledPositions[pos]++`: increment one filled count. -/
def FilledPositions.inc (f : FilledPositions) : Position → FilledPositions
  | .C => { f with C := f.C + 1 }
  | .LW => { f with LW := f.LW + 1 }
  | .RW => { f with RW := f.RW + 1 }
  | .D => { f with D := f.D + 1 }
  | .G => { f with G := f.G + 1 }
  | .F => { f with F := f.F + 1 }
  | .UTIL => { f with UTIL := f.UTIL + 1 }
  | .BENCH => { f with BENCH := f.BENCH + 1 }

/-- The all-zero filled-count record used by `initializeTeamRosters`. -/
def FilledPositions.zero : FilledPositions :=
  { C := 0, LW := 0, RW := 0, D := 0, G := 0, F := 0, UTIL := 0, BENCH := 0 }

/-- Total of all filled counts of a roster. -/
def FilledPositions.total (f : FilledPositions) : Nat :=
  f.C + f.LW + f.RW + f.D + f.G + f.F + f.UTIL + f.BENCH

/-- `TeamRoster` from `types/draft.ts`. -/
structure TeamRoster where
  teamIndex : Nat
  teamName : String
  isUser : Bool
  picks : List DraftPlayer
  filledPositions : FilledPositions
deriving DecidableEq, Repr

/-- `DraftPick` from `types/draft.ts`; `timestamp` (a JS `Date`) is modelled
as an abstract `Nat` clock value. -/
structure DraftPick where
  overallPick : Nat
  round : Nat
  pickInRound : Nat
  teamIndex : Nat
  player : Option DraftPlayer
  timestamp : Option Nat
  isUserPick : Bool
deriving DecidableEq, Repr

/-- `LeagueSettings` from `types/draft.ts` (the constant `draftFormat: 'snake'`
field carries no information and is omitted). -/
structure LeagueSettings where
  numTeams : Nat
  userDraftPosition : Nat
  draftTimerSeconds : Nat
  rosterConfig : RosterConfig
deriving DecidableEq, Repr

/-- `CPUDraftWeights` from `types/draft.ts`. -/
structure CPUDraftWeights where
  adpWeight : Rat
  positionalNeedWeight : Rat
  valueWeight : Rat
  randomnessWeight : Rat
deriving DecidableEq, Repr

/-- The UI tab selector of `DraftState`. -/
inductive DraftTab where
  | available | myTeam | draftBoard
deriving DecidableEq, Repr

/-- `DraftState` from `types/draft.ts`. -/
structure DraftState where
  leagueSettings : Option LeagueSettings
  allPlayers : List DraftPlayer
  availablePlayers : List DraftPlayer
  draftOrder : List DraftPick
  currentPickIndex : Nat
  teams : List TeamRoster
  pickTimerRemaining : Int
  isTimerActive : Bool
  currentTab : DraftTab
  isDraftStarted : Bool
  isDraftComplete : Bool
deriving DecidableEq, Repr

/-! ## `draftEngine.ts` -/

/-- One round of `generateSnakeDraftOrder`'s outer loop: the picks of round
`round` (1-based), whose first overall pick number is `startPick`.  The TS
inner loop runs `pickInRound = 1..numTeams` incrementing `overallPick` once per
push, which is the map below with `pickInRound = i + 1`, `overallPick =
startPick + i`. -/
def snakeRound (numTeams : Nat) (round : Nat) (userDraftPosition : Nat)
    (startPick : Nat) : List DraftPick :=
  (List.range numTeams).map fun i =>
    let pickInRound := i + 1
    let teamIndex := if round % 2 = 0 then numTeams - pickInRound else pickInRound - 1
    { overallPick := startPick + i
      round := round
      pickInRound := pickInRound
      teamIndex := teamIndex
      player := none
      timestamp := none
      isUserPick := teamIndex = userDraftPosition - 1 }

/-- `generateSnakeDraftOrder(numTeams, numRounds, userDraftPosition)`:
rounds `1..numRounds`, each contributing `numTeams` picks, with overall pick
numbers continuing across rounds (round `r+1` starts at `r*numTeams + 1`). -/
def generateSnakeDraftOrder (numTeams numRounds userDraftPosition : Nat) :
    List DraftPick :=
  (List.range numRounds).flatMap fun r =>
    snakeRound numTeams (r + 1) userDraftPosition (r * numTeams + 1)

/-- `calculateTotalRounds(rosterConfig)`: sum of all capacities. -/
def calculateTotalRounds (cfg : RosterConfig) : Nat :=
  cfg.C + cfg.LW + cfg.RW + cfg.D + cfg.G + cfg.F + cfg.UTIL + cfg.BENCH

/-- `initializeTeamRosters(numTeams, userDraftPosition)`. -/
def initializeTeamRosters (numTeams userDraftPosition : Nat) : List TeamRoster :=
  (List.range numTeams).map fun i =>
    let isUser := i = userDraftPosition - 1
    { teamIndex := i
      teamName := if isUser then "Your Team" else "Team " ++ toString (i + 1)
      isUser := isUser
      picks := []
      filledPositions := FilledPositions.zero }

/-- The repeated TS test `player.positions.some(p => ['C','LW','RW'].includes(p))`. -/
def DraftPlayer.isForward (player : DraftPlayer) : Bool :=
  player.positions.any fun p => [Position.C, Position.LW, Position.RW].contains p

/-- `canFillPosition(player, position)`. -/
def canFillPosition (player : DraftPlayer) (position : Position) : Bool :=
  match position with
  | .F => player.isForward
  | .UTIL => true
  | _ => player.positions.contains position

/-- The fixed list iterated by `getAvailablePositionsForPlayer`. -/
def positionTypes : List Position :=
  [.C, .LW, .RW, .D, .G, .F, .UTIL]

/-- `getAvailablePositionsForPlayer(player, filledPositions, rosterConfig)`:
positions the player can fill that still have capacity, in the fixed scan
order, with `BENCH` appended whenever it has capacity. -/
def getAvailablePositionsForPlayer (player : DraftPlayer)
    (filledPositions : FilledPositions) (rosterConfig : RosterConfig) :
    List Position :=
  (positionTypes.filter fun pos =>
      canFillPosition player pos && filledPositions.pos pos < rosterConfig.pos pos)
    ++ (if filledPositions.BENCH < rosterConfig.BENCH then [Position.BENCH] else [])

/-- The fixed primary-position scan order of `assignPlayerToRoster` STEP 1. -/
def primaryPositions : List Position := [.C, .LW, .RW, .D, .G]

/-- `assignPlayerToRoster(player, roster, rosterConfig)`.  The TS function
mutates `roster.filledPositions` and returns the chosen `Position` (or `null`);
here it returns the chosen position together with the updated filled counts,
or `none` for the `null` ("roster full") outcome. -/
def assignPlayerToRoster (player : DraftPlayer)
    (filledPositions : FilledPositions) (rosterConfig : RosterConfig) :
    Option (Position × FilledPositions) :=
  let available := getAvailablePositionsForPlayer player filledPositions rosterConfig
  if available.isEmpty then
    none
  else
    match primaryPositions.find? (fun pos =>
        player.positions.contains pos && available.contains pos) with
    | some pos => some (pos, filledPositions.inc pos)
    | none =>
      if available.contains .F && player.isForward then
        some (.F, filledPositions.inc .F)
      else if available.contains .UTIL then
        some (.UTIL, filledPositions.inc .UTIL)
      else if available.contains .BENCH then
        some (.BENCH, filledPositions.inc .BENCH)
      else
        -- TS fallback: `const assignedPos = available[0]` (comment: "should never reach here")
        match available with
        | pos :: _ => some (pos, filledPositions.inc pos)
        | [] => none

/-- `getPositionalNeeds(roster, rosterConfig)[pos] = Math.max(0, config[pos] - filled[pos])`. -/
def getPositionalNeeds (roster : TeamRoster) (rosterConfig : RosterConfig)
    (pos : Position) : Int :=
  max 0 ((rosterConfig.pos pos : Int) - (roster.filledPositions.pos pos : Int))

/-- The `criticalPositions` list built by `hasCriticalPositionalNeeds`. -/
def criticalPositions (roster : TeamRoster) (rosterConfig : RosterConfig) :
    List Position :=
  primaryPositions.filter fun pos =>
    getPositionalNeeds roster rosterConfig pos > 0 && rosterConfig.pos pos > 0

/-- The `hasNeeds` flag of `hasCriticalPositionalNeeds`:
`criticalPositions.length > 0`. -/
def hasCriticalNeeds (roster : TeamRoster) (rosterConfig : RosterConfig) : Bool :=
  !(criticalPositions roster rosterConfig).isEmpty

/-! ## `cpuDraftLogic.ts` -/

/-- `DEFAULT_CPU_WEIGHTS`. -/
def DEFAULT_CPU_WEIGHTS : CPUDraftWeights :=
  { adpWeight := 1/2
    positionalNeedWeight := 3/10
    valueWeight := 3/20
    randomnessWeight := 1/20 }

/-- The weighted sum accumulated by `scorePlayerForCPU` before its two
post-multipliers: ADP proximity, positional need, raw value and randomness,
each times its weight.  `rand` is the value of this call's `Math.random()`. -/
def cpuWeightedSum (player : DraftPlayer) (roster : TeamRoster)
    (rosterConfig : RosterConfig) (currentPickNumber : Nat)
    (weights : CPUDraftWeights) (rand : Rat) : Rat :=
  let needs := getPositionalNeeds roster rosterConfig
  let adpDiff := |player.espnADP - (currentPickNumber : Rat)|
  let adpScore := max 0 (100 - adpDiff * 2)
  let positionalScore : Int :=
    let base := player.positions.foldl
      (fun acc pos => if needs pos > 0 then max acc (needs pos * 20) else acc) 0
    let withF := if needs .F > 0 && player.isForward then max base (needs .F * 15) else base
    if needs .UTIL > 0 then max withF (needs .UTIL * 5) else withF
  let valueScore := max 0 (200 - player.espnADP)
  let randomScore := rand * 100
  adpScore * weights.adpWeight + (positionalScore : Rat) * weights.positionalNeedWeight
    + valueScore * weights.valueWeight + randomScore * weights.randomnessWeight

/-- `scorePlayerForCPU(player, roster, rosterConfig, currentPickNumber, weights)`
with the `Math.random()` draw made explicit: the weighted sum, then the goalie
0.4 multiplier (`positions` include `G`, pick before 50, `needs.G <
rosterConfig.G`), then the early C (1.1) and D (1.05) boosts before pick 30. -/
def scorePlayerForCPU (player : DraftPlayer) (roster : TeamRoster)
    (rosterConfig : RosterConfig) (currentPickNumber : Nat)
    (weights : CPUDraftWeights) (rand : Rat) : Rat :=
  let needs := getPositionalNeeds roster rosterConfig
  let score := cpuWeightedSum player roster rosterConfig currentPickNumber weights rand
  let score :=
    if player.positions.contains .G
        && decide (currentPickNumber < 50) && decide (needs .G < (rosterConfig.G : Int))
      then score * (2/5) else score
  let score :=
    if decide (currentPickNumber < 30) && player.positions.contains .C
      then score * (11/10) else score
  if decide (currentPickNumber < 30) && player.positions.contains .D
    then score * (21/20) else score

/-- The inline `Array.prototype.reduce` of `selectAutoPick`:
`players.reduce((best, player) => player.espnADP < best.espnADP ? player : best)`.
JS `reduce` with no initial value starts from the first element, so on ties the
earliest minimal-ADP player is kept; it is only ever called on non-empty lists. -/
def minByADP : List DraftPlayer → Option DraftPlayer
  | [] => none
  | p :: rest =>
    some (rest.foldl (fun best player =>
      if player.espnADP < best.espnADP then player else best) p)

/-- `selectCPUPick(availablePlayers, roster, rosterConfig, currentPickNumber,
weights)`.  `rands i` is the `Math.random()` draw consumed while scoring the
`i`-th candidate (the JS `map` draws one per candidate in list order).  The JS
`sort((a, b) => b.score - a.score)` is a stable descending sort, modelled by
`mergeSort` with `b.score ≤ a.score`.  When `totalSlots = 0` the JS division
yields `NaN`/`Infinity` but `hasNeeds` is then necessarily `false`, so the
`&&` short-circuits in both semantics and `Rat` division by zero is harmless. -/
def selectCPUPick (availablePlayers : List DraftPlayer) (roster : TeamRoster)
    (rosterConfig : RosterConfig) (currentPickNumber : Nat)
    (weights : CPUDraftWeights) (rands : Nat → Rat) : Option DraftPlayer :=
  if availablePlayers.isEmpty then
    none
  else
    let crit := criticalPositions roster rosterConfig
    let hasNeeds := hasCriticalNeeds roster rosterConfig
    let totalSlots := rosterConfig.C + rosterConfig.LW + rosterConfig.RW
      + rosterConfig.D + rosterConfig.G + rosterConfig.F + rosterConfig.UTIL
      + rosterConfig.BENCH
    let draftCompletion : Rat := (roster.picks.length : Rat) / (totalSlots : Rat)
    let candidatePlayers :=
      if hasNeeds && decide (draftCompletion > 1/2) then
        let needBasedPlayers := availablePlayers.filter fun player =>
          player.positions.any fun pos => crit.contains pos
        if !needBasedPlayers.isEmpty then needBasedPlayers else availablePlayers
      else availablePlayers
    let scoredPlayers := candidatePlayers.mapIdx fun i player =>
      (player, scorePlayerForCPU player roster rosterConfig currentPickNumber weights (rands i))
    let sorted := scoredPlayers.mergeSort fun a b => b.2 ≤ a.2
    sorted.head?.map Prod.fst

/-- `selectAutoPick(availablePlayers, roster, rosterConfig)`. -/
def selectAutoPick (availablePlayers : List DraftPlayer) (roster : TeamRoster)
    (rosterConfig : RosterConfig) : Option DraftPlayer :=
  if availablePlayers.isEmpty then
    none
  else
    let crit := criticalPositions roster rosterConfig
    if hasCriticalNeeds roster rosterConfig then
      let needPlayers := availablePlayers.filter fun player =>
        player.positions.any fun pos => crit.contains pos
      if !needPlayers.isEmpty then
        minByADP needPlayers
      else
        minByADP availablePlayers
    else
      minByADP availablePlayers

/-! ## `DraftContext.tsx`: the draft reducer

Only the `MAKE_PICK` and `AUTO_PICK` actions carry algorithmic content that
the claims are about; they are embedded as two functions on `DraftState`.
A result of `none` models the TypeScript reducer throwing a `TypeError` on
`state.leagueSettings!` being `null` (or on indexing a missing team), while
`some s` models the reducer returning state `s`. -/

/-- The team update performed inside `MAKE_PICK`'s `state.teams.map`:
append the player to `picks`, then run `assignPlayerToRoster` against the
cloned team (the TS call mutates `filledPositions` exactly when it returns a
position, and its returned position is discarded by the reducer). -/
def applyPickToTeam (player : DraftPlayer) (rosterConfig : RosterConfig)
    (team : TeamRoster) : TeamRoster :=
  let withPick := { team with picks := team.picks ++ [player] }
  match assignPlayerToRoster player withPick.filledPositions rosterConfig with
  | some (_, newFilled) => { withPick with filledPositions := newFilled }
  | none => withPick

/-- The `MAKE_PICK` branch of `draftReducer`, with the wall-clock timestamp
passed explicitly. -/
def makePickReducer (state : DraftState) (player : DraftPlayer) (now : Nat) :
    Option DraftState :=
  match state.draftOrder[state.currentPickIndex]? with
  | none => some state
  | some currentPick =>
    if currentPick.player.isSome then
      some state
    else
      match state.leagueSettings with
      | none => none
      | some ls =>
        let newDraftOrder := state.draftOrder.set state.currentPickIndex
          { currentPick with player := some player, timestamp := some now }
        let newTeams := state.teams.mapIdx fun idx team =>
          if idx = currentPick.teamIndex then applyPickToTeam player ls.rosterConfig team
          else team
        let newAvailablePlayers := state.availablePlayers.filter fun p =>
          p.playerId ≠ player.playerId
        let nextPickIndex := state.currentPickIndex + 1
        some { state with
          draftOrder := newDraftOrder
          teams := newTeams
          availablePlayers := newAvailablePlayers
          currentPickIndex := nextPickIndex
          isDraftComplete := nextPickIndex ≥ state.draftOrder.length
          pickTimerRemaining := (ls.draftTimerSeconds : Int)
          isTimerActive := ((state.draftOrder[nextPickIndex]?).map DraftPick.isUserPick).getD false }

/-- The `AUTO_PICK` branch of `draftReducer`.  After the guard, the TS code
evaluates `state.teams[currentPick.teamIndex]` (possibly `undefined`, without
error) and `state.leagueSettings!.rosterConfig` (throwing when settings are
`null`), then calls `selectAutoPick`, which returns `null` on an empty pool
before ever touching the roster; a non-empty pool with a missing team throws
inside `selectAutoPick`.  A `null` result is a no-op, otherwise the action
delegates to `MAKE_PICK`. -/
def autoPickReducer (state : DraftState) (now : Nat) : Option DraftState :=
  match state.draftOrder[state.currentPickIndex]? with
  | none => some state
  | some currentPick =>
    if currentPick.player.isSome then
      some state
    else
      match state.leagueSettings with
      | none => none
      | some ls =>
        if state.availablePlayers.isEmpty then
          some state
        else
          match state.teams[currentPick.teamIndex]? with
          | none => none
          | some team =>
            match selectAutoPick state.availablePlayers team ls.rosterConfig with
            | none => some state
            | some player => makePickReducer state player now

/-! ## Claim C1: roster assignment picks the first slot in priority order -/

/-- Whether a position may appear in `getAvailablePositionsForPlayer`'s output:
`BENCH` is always eligible; the scanned positions go through `canFillPosition`. -/
def slotEligible (player : DraftPlayer) : Position → Bool
  | .BENCH => true
  | pos => canFillPosition player pos

/-- The spec's description of the assignment priority (claim C1 / spec §4.2
step 2): the first primary position, in the order C, LW, RW, D, G, that the
player's parsed position list contains and whose filled count is below
capacity; then F if the player holds one of C/LW/RW and F has capacity; then
UTIL, then BENCH, each if it has capacity; otherwise no slot. -/
def specAssignSlot (player : DraftPlayer) (f : FilledPositions)
    (cfg : RosterConfig) : Option Position :=
  match primaryPositions.find? (fun pos =>
      player.positions.contains pos && decide (f.pos pos < cfg.pos pos)) with
  | some pos => some pos
  | none =>
    if player.isForward && decide (f.F < cfg.F) then some .F
    else if f.UTIL < cfg.UTIL then some .UTIL
    else if f.BENCH < cfg.BENCH then some .BENCH
    else none

/-- The filled counts left behind by one `assignPlayerToRoster` call: the TS
function mutates `roster.filledPositions` exactly when it returns a position,
and leaves them untouched when it returns `null`. -/
def assignResultFilled (player : DraftPlayer) (f : FilledPositions)
    (cfg : RosterConfig) : FilledPositions :=
  match assignPlayerToRoster player f cfg with
  | some (_, newFilled) => newFilled
  | none => f

/-! ## Concrete fixtures used by witnesses and counterexamples -/

/-- Build a `DraftPlayer` fixture with the fields the draft core reads. -/
def mkPlayer (id : String) (positions : List Position) (adp : Rat) : DraftPlayer :=
  { playerId := id
    skaterFullName := id
    teamAbbrevs := "TOR"
    positionCode := ""
    positions := positions
    espnADP := adp
    espnPercentOwned := 0
    espnTotalRanking := 0 }

/-- A roster configuration with no capacity anywhere. -/
def zeroRosterConfig : RosterConfig :=
  { C := 0, LW := 0, RW := 0, D := 0, G := 0, F := 0, UTIL := 0, BENCH := 0 }

/-- A C/LW dual-eligible player used by the C1 witness. -/
def c1Player : DraftPlayer := mkPlayer "c1" [.C, .LW] 1

/-- Filled counts with the single C slot taken, for the C1 witness. -/
def c1Filled : FilledPositions :=
  { C := 1, LW := 0, RW := 0, D := 0, G := 0, F := 0, UTIL := 0, BENCH := 0 }

/-- One C and one LW slot, for the C1 witness. -/
def c1Config : RosterConfig :=
  { C := 1, LW := 1, RW := 0, D := 0, G := 0, F := 0, UTIL := 0, BENCH := 0 }

/-- A centre used by the C9 counterexample. -/
def c9Player : DraftPlayer := mkPlayer "c9" [.C] 1

/-- A centre used by the C9 witness. -/
def c9wPlayer : DraftPlayer := mkPlayer "c9w" [.C] 1

/-- One C slot only, for the C9 witness. -/
def c9wConfig : RosterConfig :=
  { C := 1, LW := 0, RW := 0, D := 0, G := 0, F := 0, UTIL := 0, BENCH := 0 }

/-- The team-index sequence of round `r` (1-based) of a draft order: the
team indices of the picks whose `round` field is `r`, in list order. -/
def roundTeamSeq (picks : List DraftPick) (r : Nat) : List Nat :=
  (picks.filter (fun p => p.round = r)).map DraftPick.teamIndex

/-- A roster configuration with a single C slot. -/
def oneCConfig : RosterConfig :=
  { C := 1, LW := 0, RW := 0, D := 0, G := 0, F := 0, UTIL := 0, BENCH := 0 }

/-- An empty team with the given index. -/
def emptyTeam (i : Nat) : TeamRoster :=
  { teamIndex := i
    teamName := "Team " ++ toString (i + 1)
    isUser := i = 0
    picks := []
    filledPositions := FilledPositions.zero }

/-- An unfilled draft-order slot owned by team `i`, with overall pick `n`. -/
def openSlot (n i : Nat) : DraftPick :=
  { overallPick := n
    round := 1
    pickInRound := n
    teamIndex := i
    player := none
    timestamp := none
    isUserPick := i = 0 }

/-- C8 fixture: a one-team league whose roster configuration has zero
capacity everywhere, so roster assignment necessarily fails. -/
def c8Player : DraftPlayer := mkPlayer "c8" [.C] 1

/-- C8 fixture state: slot 0 is unfilled and on the clock, but the owning
team's roster has no capacity for any player. -/
def c8State : DraftState :=
  { leagueSettings := some
      { numTeams := 1, userDraftPosition := 1, draftTimerSeconds := 0,
        rosterConfig := zeroRosterConfig }
    allPlayers := [c8Player]
    availablePlayers := [c8Player]
    draftOrder := [openSlot 1 0]
    currentPickIndex := 0
    teams := [emptyTeam 0]
    pickTimerRemaining := 0
    isTimerActive := false
    currentTab := .available
    isDraftStarted := true
    isDraftComplete := false }

/-- C4 counterexample fixture: an unfilled in-range slot, an empty available
pool, but absent league settings (`state.leagueSettings = null`). -/
def c4JunkState : DraftState :=
  { leagueSettings := none
    allPlayers := []
    availablePlayers := []
    draftOrder := [openSlot 1 0]
    currentPickIndex := 0
    teams := []
    pickTimerRemaining := 0
    isTimerActive := false
    currentTab := .available
    isDraftStarted := true
    isDraftComplete := false }

/-- C4 witness fixture: an unfilled in-range slot, league settings present,
empty available pool. -/
def c4wState : DraftState :=
  { leagueSettings := some
      { numTeams := 1, userDraftPosition := 1, draftTimerSeconds := 30,
        rosterConfig := oneCConfig }
    allPlayers := []
    availablePlayers := []
    draftOrder := [openSlot 1 0]
    currentPickIndex := 0
    teams := [emptyTeam 0]
    pickTimerRemaining := 30
    isTimerActive := true
    currentTab := .available
    isDraftStarted := true
    isDraftComplete := false }

/-- C3 witness fixture player. -/
def c3wPlayer : DraftPlayer := mkPlayer "c3w" [.C] 2

/-- C3 witness fixture: a one-team, one-slot draft about to make its only
pick. -/
def c3wState : DraftState :=
  { leagueSettings := some
      { numTeams := 1, userDraftPosition := 1, draftTimerSeconds := 60,
        rosterConfig := oneCConfig }
    allPlayers := [c3wPlayer]
    availablePlayers := [c3wPlayer]
    draftOrder := [openSlot 1 0]
    currentPickIndex := 0
    teams := [emptyTeam 0]
    pickTimerRemaining := 60
    isTimerActive := true
    currentTab := .available
    isDraftStarted := true
    isDraftComplete := false }

/-- C10 fixture: the one player both teams will end up drafting. -/
def c10Player : DraftPlayer := mkPlayer "dup" [.C] 1

/-- C10 fixture: a two-team, two-slot draft whose available pool holds only
`c10Player`. -/
def c10State : DraftState :=
  { leagueSettings := some
      { numTeams := 2, userDraftPosition := 1, draftTimerSeconds := 0,
        rosterConfig := oneCConfig }
    allPlayers := [c10Player]
    availablePlayers := [c10Player]
    draftOrder := [openSlot 1 0, openSlot 2 1]
    currentPickIndex := 0
    teams := [emptyTeam 0, emptyTeam 1]
    pickTimerRemaining := 0
    isTimerActive := false
    currentTab := .available
    isDraftStarted := true
    isDraftComplete := false }

/-- C10 witness fixture: the player submitted to `makePick` without being in
the available pool. -/
def c10wPlayer : DraftPlayer := mkPlayer "ghost" [.C] 5

/-- C10 witness fixture: the pool holds a different player than the one that
will be submitted. -/
def c10wOther : DraftPlayer := mkPlayer "other" [.LW] 9

/-- C10 witness fixture state. -/
def c10wState : DraftState :=
  { leagueSettings := some
      { numTeams := 1, userDraftPosition := 1, draftTimerSeconds := 0,
        rosterConfig := oneCConfig }
    allPlayers := [c10wOther]
    availablePlayers := [c10wOther]
    draftOrder := [openSlot 1 0]
    currentPickIndex := 0
    teams := [emptyTeam 0]
    pickTimerRemaining := 0
    isTimerActive := false
    currentTab := .available
    isDraftStarted := true
    isDraftComplete := false }

/-- C6 witness fixture: a goalie with a worse ADP than the centre, but the
only player filling the roster's single critical need. -/
def c6Goalie : DraftPlayer := mkPlayer "g6" [.G] 3

/-- C6 witness fixture: a centre with the best ADP in the pool. -/
def c6Centre : DraftPlayer := mkPlayer "c6" [.C] 1

/-- C6 witness fixture: a roster configuration whose only capacity is one G
slot, so G is the only critical position of an empty roster. -/
def c6Config : RosterConfig :=
  { C := 0, LW := 0, RW := 0, D := 0, G := 1, F := 0, UTIL := 0, BENCH := 0 }

/-- C5 fixture: a goalie scored at overall pick 1. -/
def c5Goalie : DraftPlayer := mkPlayer "g5" [.G] 1

/-- C5 fixture: a roster with one of two G slots already filled, so the
goalie need is still critical (capacity > 0, filled < capacity). -/
def c5Roster : TeamRoster :=
  { teamIndex := 0
    teamName := "T"
    isUser := false
    picks := []
    filledPositions :=
      { C := 0, LW := 0, RW := 0, D := 0, G := 1, F := 0, UTIL := 0, BENCH := 0 } }

/-- C5 fixture: two G slots configured. -/
def c5Config : RosterConfig :=
  { C := 0, LW := 0, RW := 0, D := 0, G := 2, F := 0, UTIL := 0, BENCH := 0 }

/-- C7 fixture: a goalie with top ADP; the roster below has no slot with
capacity left that he can fill. -/
def c7Goalie : DraftPlayer := mkPlayer "g7" [.G] 1

/-- C7 fixture: a centre with a very late ADP; the roster still has open C
slots for him. -/
def c7Centre : DraftPlayer := mkPlayer "c7" [.C] 200

/-- C7 fixture roster: three picks made, with the G, UTIL and BENCH slots
filled. -/
def c7Roster : TeamRoster :=
  { teamIndex := 0
    teamName := "T7"
    isUser := false
    picks := [mkPlayer "d1" [] 0, mkPlayer "d2" [] 0, mkPlayer "d3" [] 0]
    filledPositions :=
      { C := 0, LW := 0, RW := 0, D := 0, G := 1, F := 0, UTIL := 1, BENCH := 1 } }

/-- C7 fixture configuration: three C slots plus one G/UTIL/BENCH each, so the
roster above is exactly half complete (3 of 6) and the 50%-completion filter of
`selectCPUPick` does not kick in. -/
def c7Config : RosterConfig :=
  { C := 3, LW := 0, RW := 0, D := 0, G := 1, F := 0, UTIL := 1, BENCH := 1 }

/-- C7 witness configuration: one C slot plus one G/UTIL/BENCH each, so the
roster below is 3/4 complete and the critical-need filter applies. -/
def c7wConfig : RosterConfig :=
  { C := 1, LW := 0, RW := 0, D := 0, G := 1, F := 0, UTIL := 1, BENCH := 1 }

/-- C7 witness roster: three picks made, G/UTIL/BENCH filled, C open. -/
def c7wRoster : TeamRoster :=
  { teamIndex := 0
    teamName := "T7w"
    isUser := false
    picks := [mkPlayer "e1" [] 0, mkPlayer "e2" [] 0, mkPlayer "e3" [] 0]
    filledPositions :=
      { C := 0, LW := 0, RW := 0, D := 0, G := 1, F := 0, UTIL := 1, BENCH := 1 } }

/-! ## Lemmas and claim theorems -/

theorem mem_getAvailablePositions (player : DraftPlayer) (f : FilledPositions)
    (cfg : RosterConfig) (pos : Position) :
    pos ∈ getAvailablePositionsForPlayer player f cfg ↔
      slotEligible player pos = true ∧ f.pos pos < cfg.pos pos := by
  unfold getAvailablePositionsForPlayer
  by_cases hb : f.BENCH < cfg.BENCH <;>
    cases pos <;>
      simp [hb, List.mem_filter, positionTypes, slotEligible,
        FilledPositions.pos, RosterConfig.pos]

theorem contains_getAvailablePositions (player : DraftPlayer)
    (f : FilledPositions) (cfg : RosterConfig) (pos : Position) :
    (getAvailablePositionsForPlayer player f cfg).contains pos =
      (slotEligible player pos && decide (f.pos pos < cfg.pos pos)) := by
  rw [Bool.eq_iff_iff]
  simp [mem_getAvailablePositions]

theorem find?_congr_on {α : Type _} (l : List α) {p q : α → Bool}
    (h : ∀ a ∈ l, p a = q a) : l.find? p = l.find? q := by
  induction l with
  | nil => rfl
  | cons a l ih =>
    simp only [List.find?]
    rw [h a (by simp)]
    cases q a with
    | true => rfl
    | false => exact ih fun b hb => h b (by simp [hb])

theorem available_eq_nil_of_no_slot (player : DraftPlayer) (f : FilledPositions)
    (cfg : RosterConfig)
    (hfd : primaryPositions.find? (fun pos => player.positions.contains pos
        && (getAvailablePositionsForPlayer player f cfg).contains pos) = none)
    (h1 : ¬(player.isForward = true ∧ f.F < cfg.F))
    (h2 : ¬(f.UTIL < cfg.UTIL)) (h3 : ¬(f.BENCH < cfg.BENCH)) :
    getAvailablePositionsForPlayer player f cfg = [] := by
  rw [List.find?_eq_none] at hfd
  rw [List.eq_nil_iff_forall_not_mem]
  intro pos hpos
  have hmem := (mem_getAvailablePositions player f cfg pos).mp hpos
  have hcont : (getAvailablePositionsForPlayer player f cfg).contains pos = true := by
    simpa using hpos
  cases pos with
  | F => exact h1 ⟨by simpa [slotEligible, canFillPosition] using hmem.1, hmem.2⟩
  | UTIL => exact h2 hmem.2
  | BENCH => exact h3 hmem.2
  | C =>
    refine hfd .C (by simp [primaryPositions]) ?_
    simp only [Bool.and_eq_true]
    exact ⟨hmem.1, hcont⟩
  | LW =>
    refine hfd .LW (by simp [primaryPositions]) ?_
    simp only [Bool.and_eq_true]
    exact ⟨hmem.1, hcont⟩
  | RW =>
    refine hfd .RW (by simp [primaryPositions]) ?_
    simp only [Bool.and_eq_true]
    exact ⟨hmem.1, hcont⟩
  | D =>
    refine hfd .D (by simp [primaryPositions]) ?_
    simp only [Bool.and_eq_true]
    exact ⟨hmem.1, hcont⟩
  | G =>
    refine hfd .G (by simp [primaryPositions]) ?_
    simp only [Bool.and_eq_true]
    exact ⟨hmem.1, hcont⟩

theorem specAssignSlot_eq_none_iff (player : DraftPlayer) (f : FilledPositions)
    (cfg : RosterConfig) :
    specAssignSlot player f cfg = none ↔
      (∀ pos ∈ primaryPositions,
          ¬(pos ∈ player.positions ∧ f.pos pos < cfg.pos pos))
      ∧ ¬(player.isForward = true ∧ f.F < cfg.F)
      ∧ ¬(f.UTIL < cfg.UTIL)
      ∧ ¬(f.BENCH < cfg.BENCH) := by
  unfold specAssignSlot
  rcases hfd : primaryPositions.find? (fun pos =>
      player.positions.contains pos && decide (f.pos pos < cfg.pos pos)) with _ | pos
  · rw [List.find?_eq_none] at hfd
    have hprim : ∀ pos ∈ primaryPositions,
        ¬(pos ∈ player.positions ∧ f.pos pos < cfg.pos pos) := by
      intro pos hpos hcontra
      have := hfd pos hpos
      simp [hcontra.1, hcontra.2] at this
    simp only []
    constructor
    · intro h
      by_cases c1 : (player.isForward && decide (f.F < cfg.F)) = true
      · rw [if_pos c1] at h
        exact absurd h (by simp)
      · by_cases c2 : f.UTIL < cfg.UTIL
        · rw [if_neg c1, if_pos c2] at h
          exact absurd h (by simp)
        · by_cases c3 : f.BENCH < cfg.BENCH
          · rw [if_neg c1, if_neg c2, if_pos c3] at h
            exact absurd h (by simp)
          · exact ⟨hprim, by simpa using c1, c2, c3⟩
    · rintro ⟨-, g2, g3, g4⟩
      have c1 : ¬((player.isForward && decide (f.F < cfg.F)) = true) := by
        simpa using g2
      rw [if_neg c1, if_neg g3, if_neg g4]
  · have hp := List.find?_some hfd
    have hm := List.mem_of_find?_eq_some hfd
    simp only [Bool.and_eq_true, decide_eq_true_eq] at hp
    simp only []
    constructor
    · intro h
      exact absurd h (by simp)
    · rintro ⟨h1, -⟩
      exact absurd ⟨by simpa using hp.1, hp.2⟩ (h1 pos hm)

theorem assignPlayerToRoster_map_fst (player : DraftPlayer)
    (f : FilledPositions) (cfg : RosterConfig) :
    (assignPlayerToRoster player f cfg).map Prod.fst
      = specAssignSlot player f cfg := by
  have hpred : ∀ pos ∈ primaryPositions,
      (player.positions.contains pos
          && (getAvailablePositionsForPlayer player f cfg).contains pos)
        = (player.positions.contains pos && decide (f.pos pos < cfg.pos pos)) := by
    intro pos hpos
    have he : slotEligible player pos = player.positions.contains pos := by
      simp only [primaryPositions, List.mem_cons, List.not_mem_nil, or_false] at hpos
      rcases hpos with rfl | rfl | rfl | rfl | rfl <;> rfl
    rw [contains_getAvailablePositions, he]
    cases player.positions.contains pos <;> simp
  have hfind :
      primaryPositions.find? (fun pos => player.positions.contains pos
          && (getAvailablePositionsForPlayer player f cfg).contains pos)
        = primaryPositions.find? (fun pos =>
            player.positions.contains pos && decide (f.pos pos < cfg.pos pos)) :=
    find?_congr_on _ hpred
  have hF : (getAvailablePositionsForPlayer player f cfg).contains .F
      = (player.isForward && decide (f.F < cfg.F)) := by
    rw [contains_getAvailablePositions]; rfl
  have hU : (getAvailablePositionsForPlayer player f cfg).contains .UTIL
      = decide (f.UTIL < cfg.UTIL) := by
    rw [contains_getAvailablePositions]; rfl
  have hB : (getAvailablePositionsForPlayer player f cfg).contains .BENCH
      = decide (f.BENCH < cfg.BENCH) := by
    rw [contains_getAvailablePositions]; rfl
  simp only [assignPlayerToRoster, specAssignSlot]
  rw [← hfind]
  rcases hav : (getAvailablePositionsForPlayer player f cfg).isEmpty with _ | _
  · -- the available list is non-empty
    simp only [Bool.false_eq_true, if_false]
    rcases hfd : primaryPositions.find? (fun pos => player.positions.contains pos
        && (getAvailablePositionsForPlayer player f cfg).contains pos) with _ | pos
    · simp only [hF, hU, hB]
      have hFcond : ((player.isForward && decide (f.F < cfg.F)) && player.isForward)
          = (player.isForward && decide (f.F < cfg.F)) := by
        cases player.isForward <;> simp
      simp only [hFcond]
      by_cases c1 : (player.isForward && decide (f.F < cfg.F)) = true
      · simp [c1]
      · by_cases c2 : f.UTIL < cfg.UTIL
        · simp [c1, c2]
        · by_cases c3 : f.BENCH < cfg.BENCH
          · simp [c1, c2, c3]
          · simp only [c1, Bool.false_eq_true, if_false,
              decide_eq_true_eq, if_neg c2, if_neg c3]
            exfalso
            have hnil := available_eq_nil_of_no_slot player f cfg hfd
              (by simpa using c1) c2 c3
            rw [hnil] at hav
            simp at hav
    · simp
  · -- the available list is empty: both sides return `none`
    have hnil := List.isEmpty_iff.mp hav
    have hfd : primaryPositions.find? (fun pos => player.positions.contains pos
        && (getAvailablePositionsForPlayer player f cfg).contains pos) = none := by
      rw [List.find?_eq_none]
      intro pos _
      simp [hnil]
    have g1 : ¬((player.isForward && decide (f.F < cfg.F)) = true) := by
      intro hc
      have hcf : (getAvailablePositionsForPlayer player f cfg).contains .F = true := by
        rw [contains_getAvailablePositions]
        simpa [slotEligible, canFillPosition] using hc
      rw [hnil] at hcf
      simp at hcf
    have g2 : ¬(f.UTIL < cfg.UTIL) := by
      intro hc
      have hcu : (getAvailablePositionsForPlayer player f cfg).contains .UTIL = true := by
        rw [contains_getAvailablePositions]
        simpa [slotEligible, canFillPosition] using hc
      rw [hnil] at hcu
      simp at hcu
    have g3 : ¬(f.BENCH < cfg.BENCH) := by
      intro hc
      have hcb : (getAvailablePositionsForPlayer player f cfg).contains .BENCH = true := by
        rw [contains_getAvailablePositions]
        simpa [slotEligible] using hc
      rw [hnil] at hcb
      simp at hcb
    simp only [if_pos rfl, Option.map_none', hfd]
    rw [if_neg g1, if_neg g2, if_neg g3]
    simp

/-- **C1.** `assignPlayerToRoster` returns the first position in the fixed
priority order C, LW, RW, D, G (restricted to positions the player's parsed
position list contains with filled count below capacity), then F (if the
player holds one of C/LW/RW and F has capacity), then UTIL, then BENCH; and it
returns the no-slot signal (`none`) exactly when none of those slots has
remaining capacity for the player.  In particular a player eligible for C and
LW with C full but LW open is assigned LW. -/
theorem assignPlayerToRoster_priority (player : DraftPlayer)
    (f : FilledPositions) (cfg : RosterConfig) :
    ((assignPlayerToRoster player f cfg).map Prod.fst = specAssignSlot player f cfg
    ∧ (assignPlayerToRoster player f cfg = none ↔
        (∀ pos ∈ primaryPositions,
            ¬(pos ∈ player.positions ∧ f.pos pos < cfg.pos pos))
        ∧ ¬(player.isForward = true ∧ f.F < cfg.F)
        ∧ ¬(f.UTIL < cfg.UTIL)
        ∧ ¬(f.BENCH < cfg.BENCH)))
    ∧ ((Position.C ∈ player.positions ∧ Position.LW ∈ player.positions
          ∧ f.C = cfg.C ∧ f.LW < cfg.LW) →
        (assignPlayerToRoster player f cfg).map Prod.fst = some Position.LW) := by
  have hmain := assignPlayerToRoster_map_fst player f cfg
  refine ⟨⟨hmain, ?_⟩, ?_⟩
  · rw [← specAssignSlot_eq_none_iff, ← hmain]
    cases assignPlayerToRoster player f cfg <;> simp
  · rintro ⟨hc, hlw, hfc, hflw⟩
    rw [hmain]
    unfold specAssignSlot
    have : primaryPositions.find? (fun pos =>
        player.positions.contains pos && decide (f.pos pos < cfg.pos pos))
          = some Position.LW := by
      simp only [primaryPositions, List.find?]
      have h1 : (player.positions.contains Position.C
          && decide (f.pos .C < cfg.pos .C)) = false := by
        simp only [FilledPositions.pos, RosterConfig.pos]
        simp [hfc]
      have h2 : (player.positions.contains Position.LW
          && decide (f.pos .LW < cfg.pos .LW)) = true := by
        simp only [FilledPositions.pos, RosterConfig.pos]
        simp [hlw, hflw]
      rw [h1, h2]
    rw [this]



/-! ## Claim C9: each assignment increments exactly one filled count -/

theorem FilledPositions.total_inc (f : FilledPositions) (pos : Position) :
    (f.inc pos).total = f.total + 1 := by
  cases pos <;> · simp only [FilledPositions.inc, FilledPositions.total]; omega

theorem FilledPositions.pos_inc_self (f : FilledPositions) (pos : Position) :
    (f.inc pos).pos pos = f.pos pos + 1 := by
  cases pos <;> rfl

theorem FilledPositions.pos_inc_ne (f : FilledPositions) {pos q : Position}
    (h : q ≠ pos) : (f.inc pos).pos q = f.pos q := by
  cases pos <;> cases q <;> simp_all [FilledPositions.inc, FilledPositions.pos]

theorem assignPlayerToRoster_some_shape (player : DraftPlayer)
    (f : FilledPositions) (cfg : RosterConfig) (pos : Position)
    (f' : FilledPositions)
    (h : assignPlayerToRoster player f cfg = some (pos, f')) :
    f' = f.inc pos := by
  simp only [assignPlayerToRoster] at h
  split at h
  · exact absurd h (by simp)
  · split at h
    · simp only [Option.some.injEq, Prod.mk.injEq] at h
      obtain ⟨rfl, h2⟩ := h
      exact h2.symm
    · split_ifs at h with c1 c2 c3 <;>
        try (simp only [Option.some.injEq, Prod.mk.injEq] at h
             obtain ⟨rfl, h2⟩ := h
             exact h2.symm)
      split at h
      · simp only [Option.some.injEq, Prod.mk.injEq] at h
        obtain ⟨rfl, h2⟩ := h
        exact h2.symm
      · exact absurd h (by simp)

theorem specAssignSlot_some_lt (player : DraftPlayer) (f : FilledPositions)
    (cfg : RosterConfig) (pos : Position)
    (h : specAssignSlot player f cfg = some pos) :
    f.pos pos < cfg.pos pos := by
  unfold specAssignSlot at h
  split at h
  · rename_i p hp
    simp only [Option.some.injEq] at h
    subst h
    have hc := List.find?_some hp
    simp only [Bool.and_eq_true, decide_eq_true_eq] at hc
    exact hc.2
  · split_ifs at h with c1 c2 c3
    · simp only [Option.some.injEq] at h
      subst h
      simp only [Bool.and_eq_true, decide_eq_true_eq] at c1
      exact c1.2
    · simp only [Option.some.injEq] at h
      subst h
      exact c2
    · simp only [Option.some.injEq] at h
      subst h
      exact c3

/-- **C9 counterexample.**  The claim says every single `assignPlayerToRoster`
call increments exactly one filled count by one (so one call from all-zero
counts leaves total 1).  With a zero-capacity configuration the call returns
the no-slot signal and leaves every count unchanged, so the claim fails. -/
theorem assign_failure_total_unchanged :
    assignPlayerToRoster c9Player FilledPositions.zero zeroRosterConfig = none
    ∧ ¬ ((assignResultFilled c9Player FilledPositions.zero zeroRosterConfig).total
          = FilledPositions.zero.total + 1) := by decide

/-- **C9 (amended).**  Every *successful* `assignPlayerToRoster` call
increments exactly the returned position's filled count by one (its chosen
slot had spare capacity, the total rises by exactly one, every other count is
unchanged); a call returning the no-slot signal changes nothing; and a single
call preserves the invariant that every filled count is at most its configured
capacity. -/
theorem assignPlayerToRoster_single_increment (player : DraftPlayer)
    (f : FilledPositions) (cfg : RosterConfig) :
    (∀ pos f', assignPlayerToRoster player f cfg = some (pos, f') →
        f' = f.inc pos
        ∧ f.pos pos < cfg.pos pos
        ∧ f'.total = f.total + 1
        ∧ f'.pos pos = f.pos pos + 1
        ∧ (∀ q, q ≠ pos → f'.pos q = f.pos q))
    ∧ (assignPlayerToRoster player f cfg = none →
        assignResultFilled player f cfg = f)
    ∧ ((∀ q, f.pos q ≤ cfg.pos q) →
        ∀ q, (assignResultFilled player f cfg).pos q ≤ cfg.pos q) := by
  refine ⟨?_, ?_, ?_⟩
  · intro pos f' h
    have hshape := assignPlayerToRoster_some_shape player f cfg pos f' h
    have hlt : f.pos pos < cfg.pos pos := by
      apply specAssignSlot_some_lt player f cfg pos
      rw [← assignPlayerToRoster_map_fst, h]
      rfl
    subst hshape
    exact ⟨rfl, hlt, f.total_inc pos, f.pos_inc_self pos,
      fun q hq => f.pos_inc_ne hq⟩
  · intro h
    simp [assignResultFilled, h]
  · intro hinv q
    rcases hassign : assignPlayerToRoster player f cfg with _ | ⟨pos, f'⟩
    · simpa [assignResultFilled, hassign] using hinv q
    · have hshape := assignPlayerToRoster_some_shape player f cfg pos f' hassign
      have hlt : f.pos pos < cfg.pos pos := by
        apply specAssignSlot_some_lt player f cfg pos
        rw [← assignPlayerToRoster_map_fst, hassign]
        rfl
      subst hshape
      simp only [assignResultFilled, hassign]
      by_cases hq : q = pos
      · subst hq
        rw [f.pos_inc_self q]
        omega
      · rw [f.pos_inc_ne hq]
        exact hinv q

theorem assignPlayerToRoster_single_increment_witness :
    (FilledPositions.zero.inc Position.C).total = FilledPositions.zero.total + 1
    ∧ FilledPositions.zero.pos Position.C < c9wConfig.pos Position.C := by
  have h := (assignPlayerToRoster_single_increment c9wPlayer
      FilledPositions.zero c9wConfig).1 Position.C
      (FilledPositions.zero.inc Position.C) (by decide)
  exact ⟨h.2.2.1, h.2.1⟩

theorem assignPlayerToRoster_priority_witness :
    (assignPlayerToRoster c1Player c1Filled c1Config).map Prod.fst
      = some Position.LW :=
  (assignPlayerToRoster_priority c1Player c1Filled c1Config).2
    ⟨by decide, by decide, by decide, by decide⟩

/-! ## Claim C8: roster-full during assignment is silently absorbed -/

/-- **C8.**  The claim (and spec section 7) demand that a roster-full outcome of
roster assignment fail loudly and not record the pick.  The code does the
opposite: with a zero-capacity configuration `assignPlayerToRoster` returns the
no-slot signal, yet `MAKE_PICK` still records the player into the slot and the
team's picks list, leaves the filled counts unchanged, advances the index and
reports no error.  This theorem evaluates the reducer at that failing input. -/
theorem makePick_rosterFull_silently_recorded :
    assignPlayerToRoster c8Player FilledPositions.zero zeroRosterConfig = none
    ∧ (makePickReducer c8State c8Player 5).map
        (fun s => (s.draftOrder.map DraftPick.player,
                   s.teams.map TeamRoster.picks,
                   s.teams.map TeamRoster.filledPositions,
                   s.currentPickIndex,
                   s.isDraftComplete))
      = some ([some c8Player], [[c8Player]], [FilledPositions.zero], 1, true) := by
  decide

/-! ## Claim C4: guard no-ops of makePick and autoPick -/

/-- **C4 counterexample.**  The claim says `autoPick` leaves *every* state
unchanged when the available pool is empty.  On a state whose current slot is
unfilled and in range but whose league settings are absent, the TS code
evaluates `state.leagueSettings!.rosterConfig` before the pool is consulted
and throws (modelled by `none`), so the state is not returned unchanged. -/
theorem autoPick_emptyPool_not_noop :
    c4JunkState.availablePlayers = []
    ∧ autoPickReducer c4JunkState 0 = none
    ∧ ¬ (autoPickReducer c4JunkState 0 = some c4JunkState) := by
  decide

/-- **C4 (amended).**  `makePick` and `autoPick` return the state unchanged
whenever the pick index is out of range or the current slot is already filled;
`autoPick` additionally returns the state unchanged on an empty available pool
provided the league settings are present (with absent settings the code throws
instead). -/
theorem reducer_guard_noop (state : DraftState) (player : DraftPlayer)
    (now : Nat) :
    (state.draftOrder[state.currentPickIndex]? = none →
        makePickReducer state player now = some state
        ∧ autoPickReducer state now = some state)
    ∧ (∀ cp, state.draftOrder[state.currentPickIndex]? = some cp →
        cp.player.isSome →
        makePickReducer state player now = some state
        ∧ autoPickReducer state now = some state)
    ∧ (∀ cp ls, state.draftOrder[state.currentPickIndex]? = some cp →
        cp.player = none →
        state.leagueSettings = some ls →
        state.availablePlayers = [] →
        autoPickReducer state now = some state) := by
  refine ⟨?_, ?_, ?_⟩
  · intro h
    constructor <;> simp [makePickReducer, autoPickReducer, h]
  · intro cp hcp hfilled
    constructor <;> simp [makePickReducer, autoPickReducer, hcp, hfilled]
  · intro cp ls hcp hnone hls hempty
    simp [autoPickReducer, hcp, hnone, hls, hempty]

theorem reducer_guard_noop_witness :
    autoPickReducer c4wState 0 = some c4wState :=
  (reducer_guard_noop c4wState (mkPlayer "unused" [] 0) 0).2.2
    (openSlot 1 0)
    { numTeams := 1, userDraftPosition := 1, draftTimerSeconds := 30,
      rosterConfig := oneCConfig }
    (by decide) (by decide) (by decide) (by decide)

/-! ## Claim C3: the MAKE_PICK transition -/

theorem applyPickToTeam_eq (player : DraftPlayer) (cfg : RosterConfig)
    (team : TeamRoster) :
    applyPickToTeam player cfg team
      = { team with
          picks := team.picks ++ [player]
          filledPositions := assignResultFilled player team.filledPositions cfg } := by
  simp only [applyPickToTeam, assignResultFilled]
  split <;> rfl

/-- **C3.**  With the current slot unfilled and in range (and league settings
present and the owning team existing), `makePick` records the player and the
timestamp into that slot, appends the player to the owning team's picks and
installs the roster-assignment result there, touches no other slot or team,
removes the player from the pool by identifier, advances the pick index by
one, completes the draft exactly when the new index equals the order length,
resets the timer to the configured duration, and activates the timer exactly
when the next slot is the human team's. -/
theorem makePick_transition (state : DraftState) (player : DraftPlayer)
    (now : Nat) (cp : DraftPick) (ls : LeagueSettings) (team : TeamRoster)
    (hcp : state.draftOrder[state.currentPickIndex]? = some cp)
    (hunfilled : cp.player = none)
    (hls : state.leagueSettings = some ls)
    (hteam : state.teams[cp.teamIndex]? = some team) :
    ∃ s', makePickReducer state player now = some s'
      ∧ s'.draftOrder[state.currentPickIndex]?
          = some { cp with player := some player, timestamp := some now }
      ∧ (∀ j, j ≠ state.currentPickIndex → s'.draftOrder[j]? = state.draftOrder[j]?)
      ∧ s'.teams[cp.teamIndex]?
          = some { team with
              picks := team.picks ++ [player]
              filledPositions :=
                assignResultFilled player team.filledPositions ls.rosterConfig }
      ∧ (∀ j, j ≠ cp.teamIndex → s'.teams[j]? = state.teams[j]?)
      ∧ s'.availablePlayers
          = state.availablePlayers.filter (fun p => p.playerId ≠ player.playerId)
      ∧ s'.currentPickIndex = state.currentPickIndex + 1
      ∧ (s'.isDraftComplete = true
          ↔ state.currentPickIndex + 1 = state.draftOrder.length)
      ∧ s'.pickTimerRemaining = (ls.draftTimerSeconds : Int)
      ∧ s'.isTimerActive
          = ((state.draftOrder[state.currentPickIndex + 1]?).map
              DraftPick.isUserPick).getD false := by
  have hlt : state.currentPickIndex < state.draftOrder.length :=
    (List.getElem?_eq_some.mp hcp).1
  simp only [makePickReducer, hcp, hunfilled, hls, Option.isSome_none,
    Bool.false_eq_true, if_false]
  refine ⟨_, rfl, ?_, ?_, ?_, ?_, rfl, rfl, ?_, rfl, rfl⟩
  · exact List.getElem?_set_self hlt
  · intro j hj
    exact List.getElem?_set_ne (fun h => hj h.symm)
  · simp only [List.getElem?_mapIdx, hteam, Option.map_some', applyPickToTeam_eq]
    simp
  · intro j hj
    simp only [List.getElem?_mapIdx, if_neg hj]
    cases state.teams[j]? <;> rfl
  · simp only [decide_eq_true_eq, ge_iff_le]
    omega

theorem makePick_transition_witness :
    ∃ s', makePickReducer c3wState c3wPlayer 7 = some s'
      ∧ s'.currentPickIndex = c3wState.currentPickIndex + 1
      ∧ (s'.isDraftComplete = true
          ↔ c3wState.currentPickIndex + 1 = c3wState.draftOrder.length) := by
  obtain ⟨s', h1, -, -, -, -, -, h7, h8, -, -⟩ :=
    makePick_transition c3wState c3wPlayer 7 (openSlot 1 0)
      { numTeams := 1, userDraftPosition := 1, draftTimerSeconds := 60,
        rosterConfig := oneCConfig }
      (emptyTeam 0) (by decide) (by decide) (by decide) (by decide)
  exact ⟨s', h1, h7, h8⟩

/-! ## Claim C10: makePick does not check pool membership -/

/-- **C10.**  `makePick` never requires the submitted player to belong to the
available pool: for any unfilled in-range slot (settings present, owning team
existing) the pick succeeds for an arbitrary player value, recording it into
the slot and the owning team's picks, and the pool filter removes nothing when
no pool member carries the submitted player's identifier; concretely, in
`c10State` the same player is recorded on both teams by two consecutive
`makePick` calls. -/
theorem makePick_no_pool_membership (state : DraftState) (player : DraftPlayer)
    (now : Nat) (cp : DraftPick) (ls : LeagueSettings) (team : TeamRoster)
    (hcp : state.draftOrder[state.currentPickIndex]? = some cp)
    (hunfilled : cp.player = none)
    (hls : state.leagueSettings = some ls)
    (hteam : state.teams[cp.teamIndex]? = some team) :
    (∃ s', makePickReducer state player now = some s'
      ∧ s'.draftOrder[state.currentPickIndex]?
          = some { cp with player := some player, timestamp := some now }
      ∧ (s'.teams[cp.teamIndex]?).map TeamRoster.picks
          = some (team.picks ++ [player])
      ∧ ((∀ q ∈ state.availablePlayers, q.playerId ≠ player.playerId) →
          s'.availablePlayers = state.availablePlayers))
    ∧ ((makePickReducer c10State c10Player 0).bind
          (fun s => makePickReducer s c10Player 1)).map
            (fun s => s.teams.map TeamRoster.picks)
        = some [[c10Player], [c10Player]] := by
  constructor
  · have hlt : state.currentPickIndex < state.draftOrder.length :=
      (List.getElem?_eq_some.mp hcp).1
    simp only [makePickReducer, hcp, hunfilled, hls, Option.isSome_none,
      Bool.false_eq_true, if_false]
    refine ⟨_, rfl, List.getElem?_set_self hlt, ?_, ?_⟩
    · simp only [List.getElem?_mapIdx, hteam, Option.map_some', applyPickToTeam_eq]
      simp
    · intro hnot
      apply List.filter_eq_self.mpr
      intro a ha
      simpa using hnot a ha
  · decide

theorem makePick_no_pool_membership_witness :
    ∃ s', makePickReducer c10wState c10wPlayer 3 = some s'
      ∧ s'.draftOrder[c10wState.currentPickIndex]?
          = some { openSlot 1 0 with player := some c10wPlayer, timestamp := some 3 }
      ∧ (s'.teams[(openSlot 1 0).teamIndex]?).map TeamRoster.picks
          = some ((emptyTeam 0).picks ++ [c10wPlayer])
      ∧ s'.availablePlayers = c10wState.availablePlayers := by
  obtain ⟨h1, -⟩ := makePick_no_pool_membership c10wState c10wPlayer 3
    (openSlot 1 0)
    { numTeams := 1, userDraftPosition := 1, draftTimerSeconds := 0,
      rosterConfig := oneCConfig }
    (emptyTeam 0) (by decide) (by decide) (by decide) (by decide)
  obtain ⟨s', ha, hb, hc, hd⟩ := h1
  exact ⟨s', ha, hb, hc, hd (by decide)⟩

/-! ## Claim C2: the snake draft order -/

theorem snakeRound_map_overallPick (n r u s : Nat) :
    (snakeRound n r u s).map DraftPick.overallPick = List.range' s n := by
  simp only [snakeRound, List.map_map]
  rw [List.range'_eq_map_range]
  rfl

theorem snakeRound_round_eq (n r u s : Nat) :
    ∀ p ∈ snakeRound n r u s, p.round = r := by
  intro p hp
  simp only [snakeRound, List.mem_map] at hp
  obtain ⟨i, -, rfl⟩ := hp
  rfl

theorem snakeRound_isUserPick (n r u s : Nat) :
    ∀ p ∈ snakeRound n r u s, p.isUserPick = decide (p.teamIndex = u - 1) := by
  intro p hp
  simp only [snakeRound, List.mem_map] at hp
  obtain ⟨i, -, rfl⟩ := hp
  rfl

theorem filter_round_snakeRound_self (n r u s : Nat) :
    (snakeRound n r u s).filter (fun p => p.round = r) = snakeRound n r u s := by
  apply List.filter_eq_self.mpr
  intro p hp
  simp [snakeRound_round_eq n r u s p hp]

theorem filter_round_snakeRound_ne (n r r' u s : Nat) (h : r ≠ r') :
    (snakeRound n r u s).filter (fun p => p.round = r') = [] := by
  apply List.filter_eq_nil_iff.mpr
  intro p hp
  simp [snakeRound_round_eq n r u s p hp, h]

theorem range_reverse_eq_map (n : Nat) :
    (List.range n).reverse = (List.range n).map (fun i => n - 1 - i) := by
  have h := List.reverse_range' 0 n
  simpa [← List.range_eq_range'] using h

theorem snakeRound_map_teamIndex (n r u s : Nat) :
    (snakeRound n r u s).map DraftPick.teamIndex
      = if r % 2 = 0 then (List.range n).reverse else List.range n := by
  by_cases hr : r % 2 = 0
  · rw [if_pos hr]
    have h1 : (snakeRound n r u s).map DraftPick.teamIndex
        = (List.range n).map (fun i => n - (i + 1)) := by
      simp only [snakeRound, List.map_map]
      apply List.map_congr_left
      intro i _
      simp [hr]
    rw [h1, range_reverse_eq_map]
    apply List.map_congr_left
    intro i _
    omega
  · rw [if_neg hr]
    have h1 : (snakeRound n r u s).map DraftPick.teamIndex
        = (List.range n).map (fun i => i + 1 - 1) := by
      simp only [snakeRound, List.map_map]
      apply List.map_congr_left
      intro i _
      simp [hr]
    rw [h1]
    have h2 : ∀ i ∈ List.range n, i + 1 - 1 = id i := by
      intro i _
      simp
    rw [List.map_congr_left h2, List.map_id]

theorem generateSnakeDraftOrder_succ (n m u : Nat) :
    generateSnakeDraftOrder n (m + 1) u
      = generateSnakeDraftOrder n m u ++ snakeRound n (m + 1) u (m * n + 1) := by
  simp only [generateSnakeDraftOrder, List.range_succ, List.flatMap_append,
    List.flatMap_cons, List.flatMap_nil, List.append_nil]

theorem generateSnakeDraftOrder_map_overallPick (n m u : Nat) :
    (generateSnakeDraftOrder n m u).map DraftPick.overallPick
      = List.range' 1 (m * n) := by
  induction m with
  | zero => simp [generateSnakeDraftOrder]
  | succ m ih =>
    rw [generateSnakeDraftOrder_succ, List.map_append, ih,
      snakeRound_map_overallPick]
    have h1 : m * n + 1 = 1 + m * n := by omega
    have h2 : (m + 1) * n = m * n + n := by ring
    rw [h1, h2]
    have h3 := List.range'_append 1 (m * n) n 1
    simpa [Nat.add_comm] using h3

theorem generateSnakeDraftOrder_length (n m u : Nat) :
    (generateSnakeDraftOrder n m u).length = n * m := by
  have h := congrArg List.length (generateSnakeDraftOrder_map_overallPick n m u)
  simpa [Nat.mul_comm] using h

theorem generateSnakeDraftOrder_round_le (n m u : Nat) :
    ∀ p ∈ generateSnakeDraftOrder n m u, 1 ≤ p.round ∧ p.round ≤ m := by
  induction m with
  | zero =>
    intro p hp
    simp [generateSnakeDraftOrder] at hp
  | succ m ih =>
    intro p hp
    rw [generateSnakeDraftOrder_succ, List.mem_append] at hp
    rcases hp with hp | hp
    · have h := ih p hp
      omega
    · have h := snakeRound_round_eq n (m + 1) u (m * n + 1) p hp
      omega

theorem roundTeamSeq_generate (n m u : Nat) :
    ∀ r, 1 ≤ r → r ≤ m →
      roundTeamSeq (generateSnakeDraftOrder n m u) r
        = if r % 2 = 0 then (List.range n).reverse else List.range n := by
  induction m with
  | zero =>
    intro r h1 h2
    omega
  | succ m ih =>
    intro r h1 h2
    unfold roundTeamSeq
    rw [generateSnakeDraftOrder_succ, List.filter_append, List.map_append]
    rcases Nat.lt_or_ge r (m + 1) with hlt | hge
    · rw [filter_round_snakeRound_ne n (m + 1) r u (m * n + 1) (by omega)]
      have h := ih r h1 (by omega)
      unfold roundTeamSeq at h
      simpa using h
    · have hr : r = m + 1 := by omega
      subst hr
      have hgen : (generateSnakeDraftOrder n m u).filter
          (fun p => p.round = m + 1) = [] := by
        apply List.filter_eq_nil_iff.mpr
        intro p hp
        have h := generateSnakeDraftOrder_round_le n m u p hp
        simp only [decide_eq_true_eq]
        omega
      rw [hgen, filter_round_snakeRound_self, snakeRound_map_teamIndex]
      simp

theorem generateSnakeDraftOrder_isUserPick (n m u : Nat) :
    ∀ p ∈ generateSnakeDraftOrder n m u,
      p.isUserPick = decide (p.teamIndex = u - 1) := by
  induction m with
  | zero =>
    intro p hp
    simp [generateSnakeDraftOrder] at hp
  | succ m ih =>
    intro p hp
    rw [generateSnakeDraftOrder_succ, List.mem_append] at hp
    rcases hp with hp | hp
    · exact ih p hp
    · exact snakeRound_isUserPick n (m + 1) u (m * n + 1) p hp

/-- **C2.**  For `numTeams ≥ 2`, `numRounds ≥ 1` and a user position in range,
`generateSnakeDraftOrder` yields exactly `numTeams * numRounds` picks whose
overall pick numbers are the contiguous sequence `1..numTeams*numRounds`
(no gaps, no duplicates); odd rounds list team indices ascending
`0..numTeams-1` and even rounds descending, so consecutive rounds are exact
reverses of each other; and each pick's `isUserPick` flag equals
`teamIndex = userPosition - 1`.  (Determinism is inherent: the generator is a
pure function of its three arguments.) -/
theorem generateSnakeDraftOrder_spec (numTeams numRounds userPosition : Nat)
    (hteams : 2 ≤ numTeams) (hrounds : 1 ≤ numRounds)
    (huser1 : 1 ≤ userPosition) (huser2 : userPosition ≤ numTeams) :
    (generateSnakeDraftOrder numTeams numRounds userPosition).length
        = numTeams * numRounds
    ∧ (generateSnakeDraftOrder numTeams numRounds userPosition).map
        DraftPick.overallPick = List.range' 1 (numTeams * numRounds)
    ∧ (∀ r, 1 ≤ r → r ≤ numRounds →
        roundTeamSeq (generateSnakeDraftOrder numTeams numRounds userPosition) r
          = if r % 2 = 0 then (List.range numTeams).reverse
            else List.range numTeams)
    ∧ (∀ r, 1 ≤ r → r < numRounds →
        roundTeamSeq (generateSnakeDraftOrder numTeams numRounds userPosition)
            (r + 1)
          = (roundTeamSeq (generateSnakeDraftOrder numTeams numRounds
              userPosition) r).reverse)
    ∧ (∀ p ∈ generateSnakeDraftOrder numTeams numRounds userPosition,
        p.isUserPick = decide (p.teamIndex = userPosition - 1)) := by
  refine ⟨generateSnakeDraftOrder_length numTeams numRounds userPosition, ?_,
    roundTeamSeq_generate numTeams numRounds userPosition, ?_,
    generateSnakeDraftOrder_isUserPick numTeams numRounds userPosition⟩
  · have h := generateSnakeDraftOrder_map_overallPick numTeams numRounds
      userPosition
    simpa [Nat.mul_comm] using h
  · intro r hr1 hr2
    rw [roundTeamSeq_generate numTeams numRounds userPosition (r + 1)
        (by omega) (by omega),
      roundTeamSeq_generate numTeams numRounds userPosition r hr1 (by omega)]
    by_cases hp : r % 2 = 0
    · have hp1 : ¬((r + 1) % 2 = 0) := by omega
      simp [hp, hp1]
    · have hp1 : (r + 1) % 2 = 0 := by omega
      simp [hp, hp1]

theorem generateSnakeDraftOrder_spec_witness :
    (generateSnakeDraftOrder 4 2 1).map DraftPick.overallPick = List.range' 1 8
    ∧ roundTeamSeq (generateSnakeDraftOrder 4 2 1) 1 = List.range 4
    ∧ roundTeamSeq (generateSnakeDraftOrder 4 2 1) 2 = (List.range 4).reverse := by
  obtain ⟨-, hmap, hround, -, -⟩ := generateSnakeDraftOrder_spec 4 2 1
    (by decide) (by decide) (by decide) (by decide)
  refine ⟨by simpa using hmap, ?_, ?_⟩
  · simpa using hround 1 (by decide) (by decide)
  · simpa using hround 2 (by decide) (by decide)

/-! ## Claim C6: the auto-pick policy -/

theorem foldl_minByADP_spec (rest : List DraftPlayer) (b : DraftPlayer) :
    (rest.foldl (fun best player =>
        if player.espnADP < best.espnADP then player else best) b = b
      ∨ rest.foldl (fun best player =>
          if player.espnADP < best.espnADP then player else best) b ∈ rest)
    ∧ (rest.foldl (fun best player =>
        if player.espnADP < best.espnADP then player else best) b).espnADP
          ≤ b.espnADP
    ∧ ∀ q ∈ rest,
        (rest.foldl (fun best player =>
          if player.espnADP < best.espnADP then player else best) b).espnADP
            ≤ q.espnADP := by
  induction rest generalizing b with
  | nil => simp
  | cons a t ih =>
    simp only [List.foldl_cons]
    by_cases hc : a.espnADP < b.espnADP
    · rw [if_pos hc]
      obtain ⟨h1, h2, h3⟩ := ih a
      refine ⟨?_, ?_, ?_⟩
      · rcases h1 with h | h
        · exact Or.inr (by simp [h])
        · exact Or.inr (by simp [h])
      · exact le_trans h2 (le_of_lt hc)
      · intro q hq
        rcases List.mem_cons.mp hq with rfl | hq
        · exact h2
        · exact h3 q hq
    · rw [if_neg hc]
      obtain ⟨h1, h2, h3⟩ := ih b
      refine ⟨?_, h2, ?_⟩
      · rcases h1 with h | h
        · exact Or.inl h
        · exact Or.inr (by simp [h])
      · intro q hq
        rcases List.mem_cons.mp hq with rfl | hq
        · exact le_trans h2 (le_of_not_lt hc)
        · exact h3 q hq

theorem minByADP_spec (l : List DraftPlayer) (p : DraftPlayer)
    (h : minByADP l = some p) :
    p ∈ l ∧ ∀ q ∈ l, p.espnADP ≤ q.espnADP := by
  match l with
  | [] => cases h
  | b :: rest =>
    simp only [minByADP, Option.some.injEq] at h
    subst h
    obtain ⟨h1, h2, h3⟩ := foldl_minByADP_spec rest b
    constructor
    · rcases h1 with h | h
      · simp [h]
      · simp [h]
    · intro q hq
      rcases List.mem_cons.mp hq with rfl | hq
      · exact h2
      · exact h3 q hq

theorem minByADP_eq_none_iff (l : List DraftPlayer) :
    minByADP l = none ↔ l = [] := by
  cases l <;> simp [minByADP]

theorem isEmpty_false_of_ne_nil {α : Type _} {l : List α} (h : l ≠ []) :
    l.isEmpty = false := by
  cases l
  · exact absurd rfl h
  · rfl

/-- **C6.**  `selectAutoPick` is deterministic (a pure function) and follows
exactly this policy: it returns `none` iff the pool is empty; when critical
needs exist and some available player's positions intersect them, the result
is a lowest-ADP member of that filtered set; otherwise the result is a
lowest-ADP member of the whole available pool. -/
theorem selectAutoPick_policy (availablePlayers : List DraftPlayer)
    (roster : TeamRoster) (cfg : RosterConfig) :
    (selectAutoPick availablePlayers roster cfg = none ↔ availablePlayers = [])
    ∧ (∀ p, selectAutoPick availablePlayers roster cfg = some p →
        ((hasCriticalNeeds roster cfg = true
            ∧ availablePlayers.filter (fun q => q.positions.any fun pos =>
                (criticalPositions roster cfg).contains pos) ≠ [] →
          p ∈ availablePlayers.filter (fun q => q.positions.any fun pos =>
                (criticalPositions roster cfg).contains pos)
          ∧ ∀ q ∈ availablePlayers.filter (fun q => q.positions.any fun pos =>
                (criticalPositions roster cfg).contains pos),
              p.espnADP ≤ q.espnADP)
        ∧ (¬(hasCriticalNeeds roster cfg = true
            ∧ availablePlayers.filter (fun q => q.positions.any fun pos =>
                (criticalPositions roster cfg).contains pos) ≠ []) →
          p ∈ availablePlayers
          ∧ ∀ q ∈ availablePlayers, p.espnADP ≤ q.espnADP))) := by
  by_cases hav : availablePlayers.isEmpty
  · have hnil := List.isEmpty_iff.mp hav
    subst hnil
    refine ⟨by simp [selectAutoPick], ?_⟩
    intro p h
    simp [selectAutoPick] at h
  · have hav' : availablePlayers.isEmpty = false := by
      simpa using hav
    have hne : availablePlayers ≠ [] := by
      intro h
      rw [h] at hav'
      simp at hav'
    constructor
    · simp only [selectAutoPick, hav', Bool.false_eq_true, if_false]
      constructor
      · intro h
        exfalso
        by_cases h1 : hasCriticalNeeds roster cfg
        · rw [if_pos h1] at h
          by_cases hfe : List.filter (fun player => player.positions.any fun pos =>
              (criticalPositions roster cfg).contains pos) availablePlayers = []
          · rw [hfe] at h
            simp only [List.isEmpty_nil, Bool.not_true, Bool.false_eq_true,
              if_false] at h
            exact hne ((minByADP_eq_none_iff _).mp h)
          · rw [if_pos (by rw [isEmpty_false_of_ne_nil hfe]; rfl)] at h
            exact hfe ((minByADP_eq_none_iff _).mp h)
        · rw [if_neg h1] at h
          exact hne ((minByADP_eq_none_iff _).mp h)
      · intro h
        exact absurd h hne
    · intro p hp
      simp only [selectAutoPick, hav', Bool.false_eq_true, if_false] at hp
      by_cases h1 : hasCriticalNeeds roster cfg
      · rw [if_pos h1] at hp
        by_cases hfe : List.filter (fun player => player.positions.any fun pos =>
            (criticalPositions roster cfg).contains pos) availablePlayers = []
        · rw [hfe] at hp
          simp only [List.isEmpty_nil, Bool.not_true, Bool.false_eq_true,
            if_false] at hp
          have hm := minByADP_spec _ _ hp
          constructor
          · intro hcontra
            exact absurd hfe hcontra.2
          · intro _
            exact hm
        · rw [if_pos (by rw [isEmpty_false_of_ne_nil hfe]; rfl)] at hp
          have hm := minByADP_spec _ _ hp
          constructor
          · intro _
            exact hm
          · intro hcontra
            exact absurd ⟨h1, hfe⟩ hcontra
      · rw [if_neg h1] at hp
        have hm := minByADP_spec _ _ hp
        constructor
        · intro hcontra
          exact absurd hcontra.1 h1
        · intro _
          exact hm

theorem selectAutoPick_policy_witness :
    c6Goalie ∈ ([c6Goalie, c6Centre].filter (fun q => q.positions.any fun pos =>
        (criticalPositions (emptyTeam 0) c6Config).contains pos))
    ∧ ∀ q ∈ ([c6Goalie, c6Centre].filter (fun q => q.positions.any fun pos =>
        (criticalPositions (emptyTeam 0) c6Config).contains pos)),
      c6Goalie.espnADP ≤ q.espnADP :=
  ((selectAutoPick_policy [c6Goalie, c6Centre] (emptyTeam 0) c6Config).2 c6Goalie
    (by decide)).1 ⟨by decide, by decide⟩

/-! ## Claim C5: the goalie 0.4 multiplier condition -/

theorem goalieNeeds_lt_iff (roster : TeamRoster) (cfg : RosterConfig) :
    getPositionalNeeds roster cfg .G < (cfg.G : Int)
      ↔ (0 < cfg.G ∧ 1 ≤ roster.filledPositions.G) := by
  simp only [getPositionalNeeds, FilledPositions.pos, RosterConfig.pos]
  omega

/-- **C5 counterexample.**  The claim says the 0.4 multiplier applies exactly
when the pick is before 50 *and the goalie need is not yet critical*.  With
`G` capacity 2 and one G slot filled the need *is* critical (capacity > 0 and
filled < capacity), yet the code's test `needs.G < rosterConfig.G`
(`max(0, 2-1) = 1 < 2`) applies the multiplier anyway: the score equals 0.4
times the weighted sum and differs from the unmultiplied weighted sum. -/
theorem scorePlayerForCPU_goalie_counterexample :
    scorePlayerForCPU c5Goalie c5Roster c5Config 1 DEFAULT_CPU_WEIGHTS 0
        = (2/5) * cpuWeightedSum c5Goalie c5Roster c5Config 1 DEFAULT_CPU_WEIGHTS 0
    ∧ scorePlayerForCPU c5Goalie c5Roster c5Config 1 DEFAULT_CPU_WEIGHTS 0
        ≠ cpuWeightedSum c5Goalie c5Roster c5Config 1 DEFAULT_CPU_WEIGHTS 0
    ∧ 0 < c5Config.G ∧ c5Roster.filledPositions.G < c5Config.G := by
  have hsum : cpuWeightedSum c5Goalie c5Roster c5Config 1 DEFAULT_CPU_WEIGHTS 0
      = 1717/20 := by
    norm_num [cpuWeightedSum, getPositionalNeeds, FilledPositions.pos,
      RosterConfig.pos, DEFAULT_CPU_WEIGHTS, c5Goalie, c5Roster, c5Config,
      mkPlayer, DraftPlayer.isForward]
  have hGc : c5Goalie.positions.contains Position.G = true := by decide
  have hCc : c5Goalie.positions.contains Position.C = false := by decide
  have hDc : c5Goalie.positions.contains Position.D = false := by decide
  have hn : decide (getPositionalNeeds c5Roster c5Config Position.G
      < (c5Config.G : Int)) = true := by decide
  have h50 : decide ((1:Nat) < 50) = true := by decide
  have h30 : decide ((1:Nat) < 30) = true := by decide
  have hmul : scorePlayerForCPU c5Goalie c5Roster c5Config 1 DEFAULT_CPU_WEIGHTS 0
      = (2/5) * cpuWeightedSum c5Goalie c5Roster c5Config 1 DEFAULT_CPU_WEIGHTS 0 := by
    simp only [scorePlayerForCPU, hGc, hCc, hDc, hn, h50, h30, Bool.true_and,
      Bool.and_true, Bool.false_and, Bool.and_false, Bool.false_eq_true,
      if_false, if_true]
    ring
  refine ⟨hmul, ?_, by decide, by decide⟩
  rw [hmul, hsum]
  norm_num

/-- **C5 (amended).**  For a player whose position list includes G, the summed
weighted score is multiplied by 0.4 exactly when the current pick number is
before overall pick 50, the configured G capacity is positive, and at least
one G slot is already filled (the code's `needs.G < rosterConfig.G` test);
the early C and D boosts then apply on top as usual. -/
theorem scorePlayerForCPU_goalie_multiplier (player : DraftPlayer)
    (roster : TeamRoster) (cfg : RosterConfig) (pick : Nat)
    (w : CPUDraftWeights) (rand : Rat)
    (hG : player.positions.contains Position.G = true) :
    scorePlayerForCPU player roster cfg pick w rand
      = (if pick < 50 ∧ 0 < cfg.G ∧ 1 ≤ roster.filledPositions.G
            then (2/5 : Rat) else 1)
        * (if pick < 30 ∧ player.positions.contains Position.C = true
            then (11/10 : Rat) else 1)
        * (if pick < 30 ∧ player.positions.contains Position.D = true
            then (21/20 : Rat) else 1)
        * cpuWeightedSum player roster cfg pick w rand := by
  have e1 : (player.positions.contains Position.G && decide (pick < 50)
        && decide (getPositionalNeeds roster cfg .G < (cfg.G : Int)))
      = decide (pick < 50 ∧ 0 < cfg.G ∧ 1 ≤ roster.filledPositions.G) := by
    rw [hG]
    simp only [Bool.true_and, ← Bool.decide_and, decide_eq_decide]
    exact and_congr_right fun _ => goalieNeeds_lt_iff roster cfg
  have e2 : (decide (pick < 30) && player.positions.contains Position.C)
      = decide (pick < 30 ∧ player.positions.contains Position.C = true) := by
    by_cases h : pick < 30 <;> cases hc : player.positions.contains Position.C <;>
      simp [h, hc]
  have e3 : (decide (pick < 30) && player.positions.contains Position.D)
      = decide (pick < 30 ∧ player.positions.contains Position.D = true) := by
    by_cases h : pick < 30 <;> cases hc : player.positions.contains Position.D <;>
      simp [h, hc]
  simp only [scorePlayerForCPU, e1, e2, e3, decide_eq_true_eq]
  split_ifs <;> ring

theorem scorePlayerForCPU_goalie_multiplier_witness :
    scorePlayerForCPU c5Goalie c5Roster c5Config 1 DEFAULT_CPU_WEIGHTS 0
      = (if (1:Nat) < 50 ∧ 0 < c5Config.G ∧ 1 ≤ c5Roster.filledPositions.G
            then (2/5 : Rat) else 1)
        * (if (1:Nat) < 30 ∧ c5Goalie.positions.contains Position.C = true
            then (11/10 : Rat) else 1)
        * (if (1:Nat) < 30 ∧ c5Goalie.positions.contains Position.D = true
            then (21/20 : Rat) else 1)
        * cpuWeightedSum c5Goalie c5Roster c5Config 1 DEFAULT_CPU_WEIGHTS 0 :=
  scorePlayerForCPU_goalie_multiplier c5Goalie c5Roster c5Config 1
    DEFAULT_CPU_WEIGHTS 0 (by decide)

/-! ## Claim C7: CPU selection and eligibility -/

theorem mergeSort_pair {α : Type _} (le : α → α → Bool) (x y : α) :
    [x, y].mergeSort le = if le x y then [x, y] else [y, x] := by
  simp [List.mergeSort, List.merge]

theorem slotEligible_primary (player : DraftPlayer) (pos : Position)
    (h : pos ∈ primaryPositions) :
    slotEligible player pos = player.positions.contains pos := by
  simp only [primaryPositions, List.mem_cons, List.not_mem_nil, or_false] at h
  rcases h with rfl | rfl | rfl | rfl | rfl <;> rfl

theorem mem_criticalPositions (roster : TeamRoster) (cfg : RosterConfig)
    (pos : Position) (h : pos ∈ criticalPositions roster cfg) :
    pos ∈ primaryPositions
    ∧ roster.filledPositions.pos pos < cfg.pos pos := by
  simp only [criticalPositions, List.mem_filter, Bool.and_eq_true,
    decide_eq_true_eq] at h
  refine ⟨h.1, ?_⟩
  have h2 := h.2.1
  simp only [getPositionalNeeds] at h2
  omega

theorem eligible_of_critical_mem (player : DraftPlayer) (roster : TeamRoster)
    (cfg : RosterConfig) (pos : Position)
    (hpos : pos ∈ player.positions)
    (hc : pos ∈ criticalPositions roster cfg) :
    getAvailablePositionsForPlayer player roster.filledPositions cfg ≠ [] := by
  obtain ⟨hprim, hlt⟩ := mem_criticalPositions roster cfg pos hc
  apply List.ne_nil_of_mem
  apply (mem_getAvailablePositions player roster.filledPositions cfg pos).mpr
  refine ⟨?_, hlt⟩
  rw [slotEligible_primary player pos hprim]
  simpa using hpos

/-- **C7 counterexample.**  The claim says `selectCPUPick` never returns a
player with zero eligible positions when an eligible candidate exists.  With
the roster half complete the critical-need filter does not apply, and the
scoring (here with all random draws 0) prefers a top-ADP goalie whose every
slot is already full over a late-ADP centre who still fits: the returned
player has an empty eligible-position set while an eligible candidate is in
the pool. -/
theorem selectCPUPick_ineligible_counterexample :
    selectCPUPick [c7Goalie, c7Centre] c7Roster c7Config 1 DEFAULT_CPU_WEIGHTS
        (fun _ => 0) = some c7Goalie
    ∧ getAvailablePositionsForPlayer c7Goalie c7Roster.filledPositions c7Config
        = []
    ∧ getAvailablePositionsForPlayer c7Centre c7Roster.filledPositions c7Config
        ≠ [] := by
  refine ⟨?_, by decide, by decide⟩
  have hA : scorePlayerForCPU c7Goalie c7Roster c7Config 1 DEFAULT_CPU_WEIGHTS 0
      = 1597/50 := by
    norm_num [scorePlayerForCPU, cpuWeightedSum, getPositionalNeeds,
      FilledPositions.pos, RosterConfig.pos, DEFAULT_CPU_WEIGHTS, c7Goalie,
      c7Roster, c7Config, mkPlayer, DraftPlayer.isForward]
    rw [if_neg (by decide), if_neg (by decide)]
  have hB : scorePlayerForCPU c7Centre c7Roster c7Config 1 DEFAULT_CPU_WEIGHTS 0
      = 99/5 := by
    norm_num [scorePlayerForCPU, cpuWeightedSum, getPositionalNeeds,
      FilledPositions.pos, RosterConfig.pos, DEFAULT_CPU_WEIGHTS, c7Centre,
      c7Roster, c7Config, mkPlayer, DraftPlayer.isForward]
    rw [if_neg (by decide), if_neg (by decide)]
  have hcomp : ¬ ((c7Roster.picks.length : Rat)
      / ((c7Config.C + c7Config.LW + c7Config.RW + c7Config.D + c7Config.G
          + c7Config.F + c7Config.UTIL + c7Config.BENCH : Nat) : Rat)
        > 1/2) := by
    norm_num [c7Roster, c7Config, mkPlayer]
  simp only [selectCPUPick, List.isEmpty_cons, Bool.false_eq_true, if_false,
    decide_eq_false hcomp, Bool.and_false, List.mapIdx_cons, List.mapIdx_nil,
    hA, hB]
  rw [mergeSort_pair]
  rw [if_pos (by norm_num : (decide ((99:Rat)/5 ≤ 1597/50)) = true)]
  rfl

/-- **C7 (amended).**  When the critical-need filter of `selectCPUPick`
applies — critical needs exist, the team's draft completion exceeds 50%, and
at least one available player's positions intersect the critical positions —
the selected player comes from the critical-need-filtered candidate set, and
therefore has a non-empty set of eligible positions with remaining capacity. -/
theorem selectCPUPick_restricted_eligible (avail : List DraftPlayer)
    (roster : TeamRoster) (cfg : RosterConfig) (pick : Nat)
    (w : CPUDraftWeights) (rands : Nat → Rat)
    (hcrit : hasCriticalNeeds roster cfg = true)
    (hcompl : (roster.picks.length : Rat)
        / ((cfg.C + cfg.LW + cfg.RW + cfg.D + cfg.G + cfg.F + cfg.UTIL
            + cfg.BENCH : Nat) : Rat) > 1/2)
    (hfil : avail.filter (fun player => player.positions.any fun pos =>
        (criticalPositions roster cfg).contains pos) ≠ []) :
    ∀ p, selectCPUPick avail roster cfg pick w rands = some p →
      p ∈ avail.filter (fun player => player.positions.any fun pos =>
          (criticalPositions roster cfg).contains pos)
      ∧ getAvailablePositionsForPlayer p roster.filledPositions cfg ≠ [] := by
  intro p hp
  have hne : avail ≠ [] := by
    intro h
    rw [h] at hfil
    simp at hfil
  simp only [selectCPUPick, isEmpty_false_of_ne_nil hne, Bool.false_eq_true,
    if_false, hcrit, Bool.true_and, decide_eq_true hcompl, if_true,
    isEmpty_false_of_ne_nil hfil, Bool.not_false] at hp
  rcases hs : (((avail.filter (fun player => player.positions.any fun pos =>
        (criticalPositions roster cfg).contains pos)).mapIdx fun i player =>
          (player, scorePlayerForCPU player roster cfg pick w (rands i))).mergeSort
            fun a b => b.2 ≤ a.2) with _ | ⟨pr, rest⟩
  · rw [hs] at hp
    simp at hp
  · rw [hs] at hp
    simp only [List.head?_cons, Option.map_some'] at hp
    have hpr : pr ∈ ((avail.filter (fun player => player.positions.any fun pos =>
        (criticalPositions roster cfg).contains pos)).mapIdx fun i player =>
          (player, scorePlayerForCPU player roster cfg pick w (rands i))) := by
      have hmem : pr ∈ (((avail.filter (fun player => player.positions.any fun pos =>
          (criticalPositions roster cfg).contains pos)).mapIdx fun i player =>
            (player, scorePlayerForCPU player roster cfg pick w (rands i))).mergeSort
              fun a b => b.2 ≤ a.2) := by
        rw [hs]
        exact List.mem_cons_self pr rest
      exact (List.mergeSort_perm _ _).mem_iff.mp hmem
    rw [List.mapIdx_eq_enum_map, List.mem_map] at hpr
    obtain ⟨⟨i, a⟩, hia, hfa⟩ := hpr
    have ha : a ∈ avail.filter (fun player => player.positions.any fun pos =>
        (criticalPositions roster cfg).contains pos) := by
      obtain ⟨hi, hax⟩ := List.mem_enum hia
      rw [hax]
      exact List.getElem_mem hi
    have hp1 : pr.1 = p := by
      injection hp
    have hpa : p = a := by
      rw [← hp1, ← hfa]
      rfl
    subst hpa
    refine ⟨ha, ?_⟩
    rw [List.mem_filter] at ha
    have hany := ha.2
    simp only [List.any_eq_true] at hany
    obtain ⟨pos, hpos, hcont⟩ := hany
    exact eligible_of_critical_mem p roster cfg pos hpos (by simpa using hcont)

theorem selectCPUPick_restricted_eligible_witness :
    c7Centre ∈ ([c7Goalie, c7Centre].filter (fun player =>
        player.positions.any fun pos =>
          (criticalPositions c7wRoster c7wConfig).contains pos))
    ∧ getAvailablePositionsForPlayer c7Centre c7wRoster.filledPositions c7wConfig
        ≠ [] := by
  have hsel : selectCPUPick [c7Goalie, c7Centre] c7wRoster c7wConfig 1
      DEFAULT_CPU_WEIGHTS (fun _ => 0) = some c7Centre := by
    have hcomp : ((c7wRoster.picks.length : Rat)
        / ((c7wConfig.C + c7wConfig.LW + c7wConfig.RW + c7wConfig.D
            + c7wConfig.G + c7wConfig.F + c7wConfig.UTIL
            + c7wConfig.BENCH : Nat) : Rat) > 1/2) := by
      norm_num [c7wRoster, c7wConfig, mkPlayer]
    have hfilter : List.filter (fun player => player.positions.any fun pos =>
        (criticalPositions c7wRoster c7wConfig).contains pos)
        [c7Goalie, c7Centre] = [c7Centre] := by decide
    have hcritw : hasCriticalNeeds c7wRoster c7wConfig = true := by decide
    simp only [selectCPUPick, List.isEmpty_cons, Bool.false_eq_true, if_false,
      hcritw, Bool.true_and, decide_eq_true hcomp, if_true, hfilter,
      Bool.not_false, List.mapIdx_cons, List.mapIdx_nil]
    simp [List.mergeSort]
  exact selectCPUPick_restricted_eligible [c7Goalie, c7Centre] c7wRoster
    c7wConfig 1 DEFAULT_CPU_WEIGHTS (fun _ => 0)
    (by decide)
    (by norm_num [c7wRoster, c7wConfig, mkPlayer])
    (by decide)
    c7Centre hsel
